import Mathlib

/-!
Shallow embedding of `session 4/paint assignment/client.py`: the iterative
agent loop in `main`, its per-line response classification, argument
coercion against each tool's declared input schema, tool-result
normalization, and the global-state reset performed by `reset_state`.

External collaborators (the model-completion service and the MCP tool
session) are modelled as oracle functions carried in an `Env` record: the
completion oracle is indexed by the iteration counter at call time (one
completion call per loop body), and the invocation oracle maps a tool name
and coerced arguments to either a raw result or an error message.  Python
strings are modelled as Lean `String`s; whitespace stripping uses the core
`Char.isWhitespace` set (space, tab, CR, LF), a faithful model for all
inputs the protocol produces.  Python `float` values are carried as their
validated source token; no claim depends on float arithmetic or display.
-/

deriving instance DecidableEq for Except

namespace PaintClient

/-- Python `str.strip()`: drop whitespace from both ends.  Implemented
structurally over the character list so concrete runs reduce by `rfl`. -/
def pyStrip (s : String) : String :=
  String.mk (((s.data.dropWhile Char.isWhitespace).reverse.dropWhile Char.isWhitespace).reverse)

/-- Value of a decimal digit list, skipping underscores, most significant
first (the accumulator form of Python's base-10 `int` parsing). -/
def natOfDigits (l : List Char) : Nat :=
  l.foldl (fun acc c => if c = '_' then acc else acc * 10 + (c.toNat - '0'.toNat)) 0

/-- Tail of a Python numeric digit group: digits with single underscores
allowed only between digits (`1_0` valid, `1__0` and `1_` invalid). -/
def underscoreTail : List Char → Bool
  | [] => true
  | c :: cs =>
    if c = '_' then
      match cs with
      | [] => false
      | d :: _ => d.isDigit && underscoreTail cs
    else
      c.isDigit && underscoreTail cs

/-- Nonempty digit sequence in Python `int()` syntax: leading digit, then
digits with single interior underscores. -/
def validDigitSeq : List Char → Bool
  | [] => false
  | c :: cs => c.isDigit && underscoreTail cs

/-- Python `int(s)`: strip whitespace, optional sign, base-10 digits
(with single interior underscores); `none` models the `ValueError`. -/
def parsePyInt (s : String) : Option Int :=
  match (pyStrip s).data with
  | [] => none
  | c :: cs =>
    if c = '+' then
      if validDigitSeq cs then some ((natOfDigits cs : Nat) : Int) else none
    else if c = '-' then
      if validDigitSeq cs then some (-((natOfDigits cs : Nat) : Int)) else none
    else
      if validDigitSeq (c :: cs) then some ((natOfDigits (c :: cs) : Nat) : Int) else none

/-- Split a character list on every occurrence of `sep` (Python
`str.split(sep)` on a one-character separator: `n` separators yield
`n + 1` pieces, empty pieces included). -/
def splitOnChar (sep : Char) : List Char → List (List Char)
  | [] => [[]]
  | c :: cs =>
    match splitOnChar sep cs with
    | [] => [[]]
    | h :: t => if c = sep then [] :: h :: t else (c :: h) :: t

/-- Python `sep.join(pieces)`. -/
def pyJoin (sep : String) : List String → String
  | [] => ""
  | [x] => x
  | x :: y :: rest => x ++ sep ++ pyJoin sep (y :: rest)

/-- Concatenate a list of strings. -/
def concatList : List String → String
  | [] => ""
  | x :: xs => x ++ concatList xs

/-- Python `s.split(sep)` for a one-character separator, as strings. -/
def pySplit (sep : Char) (s : String) : List String :=
  (splitOnChar sep s.data).map String.mk

/-- Python `s.split(sep, 1)[1]`: everything after the first occurrence of
the separator (callers guarantee the separator occurs). -/
def dropThroughFirst (sep : Char) : List Char → List Char
  | [] => []
  | c :: cs => if c = sep then cs else dropThroughFirst sep cs

/-- Python `s.startswith(pre)`. -/
def pyStartsWith (s pre : String) : Bool := pre.data.isPrefixOf s.data

/-- Empty or a valid digit sequence (either side of a float's dot may be
empty, but not both). -/
def digitsOrEmpty (l : List Char) : Bool := l.isEmpty || validDigitSeq l

/-- Mantissa of a Python float literal: digits, or digits around a single
dot with at least one side nonempty. -/
def mantissaValid (l : List Char) : Bool :=
  match splitOnChar '.' l with
  | [a] => validDigitSeq a
  | [a, b] => digitsOrEmpty a && digitsOrEmpty b && !(a.isEmpty && b.isEmpty)
  | _ => false

/-- Exponent of a Python float literal: optional sign then digits. -/
def exponentValid (l : List Char) : Bool :=
  match l with
  | [] => false
  | c :: cs => if c = '+' || c = '-' then validDigitSeq cs else validDigitSeq (c :: cs)

/-- Syntactic acceptor for Python `float(s)`: strip, optional sign, then
`inf`/`infinity`/`nan` (case-insensitive) or mantissa with optional
exponent.  Models only acceptance; the value is carried as its token. -/
def pyFloatValid (s : String) : Bool :=
  match (pyStrip s).data with
  | [] => false
  | c :: cs =>
    let body := if c = '+' || c = '-' then cs else c :: cs
    let lower := body.map Char.toLower
    if lower = "inf".data || lower = "infinity".data || lower = "nan".data then true
    else
      match splitOnChar 'e' lower with
      | [m] => mantissaValid m
      | [m, ex] => mantissaValid m && exponentValid ex
      | _ => false

/-- Characters removed by the source's `value.strip('[]')`. -/
def isBracketChar (c : Char) : Bool := c = '[' || c = ']'

/-- Drop bracket characters from both ends of a character list (Python
`str.strip('[]')`). -/
def stripChars (l : List Char) : List Char :=
  ((l.dropWhile isBracketChar).reverse.dropWhile isBracketChar).reverse

/-- Python `value.strip('[]')` on a string. -/
def stripBracketChars (s : String) : String := String.mk (stripChars s.data)

/-- One character of Python `repr` for strings: escape backslash, the
active quote, and the common control characters. -/
def pyEscapeChar (q c : Char) : String :=
  if c = Char.ofNat 92 then "\\\\"
  else if c = q then String.mk [Char.ofNat 92, q]
  else if c = Char.ofNat 10 then "\\n"
  else if c = Char.ofNat 9 then "\\t"
  else if c = Char.ofNat 13 then "\\r"
  else String.mk [c]

/-- Python `repr` of a string: single quotes by default, double quotes
when the string holds a single quote but no double quote. -/
def pyReprStr (s : String) : String :=
  let hasSingle := s.data.contains (Char.ofNat 39)
  let hasDouble := s.data.contains (Char.ofNat 34)
  let q := if hasSingle && !hasDouble then Char.ofNat 34 else Char.ofNat 39
  String.mk [q] ++ concatList (s.data.map (pyEscapeChar q)) ++ String.mk [q]

/-- Typed argument values produced by the coercion step (source lines
190-200): `int(value)`, `float(value)` (token retained), the integer list
of the `array` branch, and `str(value)` pass-through. -/
inductive PyVal where
  | int (n : Int)
  | num (tok : String)
  | arr (l : List Int)
  | str (s : String)
deriving DecidableEq

/-- Python `repr` of an argument value as it appears in the history trace
f-string.  Float display is abstracted to the trimmed source token. -/
def pyReprVal : PyVal → String
  | PyVal.int n => toString n
  | PyVal.num tok => pyStrip tok
  | PyVal.arr l => "[" ++ pyJoin ", " (l.map toString) ++ "]"
  | PyVal.str s => pyReprStr s

/-- Failures raised while coercing raw tokens against a schema (all are
`ValueError`s in the source and `ArgumentError`s in the spec's taxonomy). -/
inductive ArgErr where
  | notEnough (fname : String)
  | intParse (tok : String)
  | floatParse (tok : String)
deriving DecidableEq

/-- Failures of one FUNCTION_CALL directive: unknown tool, argument
coercion failure, or remote invocation error (source lines 174-234). -/
inductive CallErr where
  | unknownTool (fname : String)
  | argument (e : ArgErr)
  | invocation (msg : String)
deriving DecidableEq

/-- `str(e)` for the coercion errors, matching CPython's messages. -/
def argErrMsg : ArgErr → String
  | ArgErr.notEnough fname => "Not enough parameters provided for " ++ fname
  | ArgErr.intParse tok => "invalid literal for int() with base 10: " ++ pyReprStr tok
  | ArgErr.floatParse tok => "could not convert string to float: " ++ pyReprStr tok

/-- `str(e)` for any directive-processing failure. -/
def callErrMsg : CallErr → String
  | CallErr.unknownTool fname => "Unknown tool: " ++ fname
  | CallErr.argument e => argErrMsg e
  | CallErr.invocation msg => msg

/-- History entry appended on a directive failure (source line 233). -/
def errEntry (iter : Nat) (e : CallErr) : String :=
  "Error in iteration " ++ toString (iter + 1) ++ ": " ++ callErrMsg e

/-- The `array` branch's comprehension `[int(x.strip()) for x in value]`:
left to right, first failure raises (error records the stripped element,
the exact string handed to `int`). -/
def parseIntList : List String → Except ArgErr (List Int)
  | [] => Except.ok []
  | x :: xs =>
    match parsePyInt x with
    | none => Except.error (ArgErr.intParse (pyStrip x))
    | some n =>
      match parseIntList xs with
      | Except.error e => Except.error e
      | Except.ok ns => Except.ok (n :: ns)

/-- Coerce one raw token against one declared parameter type (source
lines 188-200): `integer` via `int`, `number` via `float`, `array` via
strip-brackets / split-on-comma / per-element `int`, anything else via
`str` pass-through. -/
def coerceOne (ptype : String) (value : String) : Except ArgErr PyVal :=
  if ptype = "integer" then
    match parsePyInt value with
    | some n => Except.ok (PyVal.int n)
    | none => Except.error (ArgErr.intParse value)
  else if ptype = "number" then
    if pyFloatValid value then Except.ok (PyVal.num value)
    else Except.error (ArgErr.floatParse value)
  else if ptype = "array" then
    match parseIntList (pySplit ',' (stripBracketChars value)) with
    | Except.ok ns => Except.ok (PyVal.arr ns)
    | Except.error e => Except.error e
  else Except.ok (PyVal.str value)

/-- One tool descriptor: its name and the ordered `properties` mapping of
parameter name to declared type taken from `tool.inputSchema`. -/
structure ToolDesc where
  name : String
  params : List (String × String)
deriving DecidableEq

/-- The argument-building loop of source lines 183-200: walk the declared
parameters in order, raise `Not enough parameters` when the token list is
exhausted, pop and coerce one token per parameter, and ignore leftover
tokens. -/
def coerceArgs (fname : String) : List (String × String) → List String →
    Except ArgErr (List (String × PyVal))
  | [], _ => Except.ok []
  | _ :: _, [] => Except.error (ArgErr.notEnough fname)
  | (pn, pt) :: rest, v :: toks =>
    match coerceOne pt v with
    | Except.error e => Except.error e
    | Except.ok val =>
      match coerceArgs fname rest toks with
      | Except.error e => Except.error e
      | Except.ok args => Except.ok ((pn, val) :: args)

/-- Python `repr` of the `arguments` dict as rendered inside the trace
f-string: insertion-ordered `'key': value` pairs inside braces. -/
def pyReprArgs (args : List (String × PyVal)) : String :=
  "\x7b" ++ pyJoin ", " (args.map (fun a => pyReprStr a.1 ++ ": " ++ pyReprVal a.2)) ++ "\x7d"

/-- History entry appended after a successful tool call (source lines
222-225). -/
def traceEntry (iter : Nat) (fname : String) (args : List (String × PyVal))
    (resultStr : String) : String :=
  "In the " ++ toString (iter + 1) ++ " iteration you called " ++ fname ++
    " with " ++ pyReprArgs args ++ " parameters, and the function returned " ++
    resultStr ++ "."

/-- One element of a list-shaped tool result: either it exposes a `text`
attribute or it is rendered by `str(item)` (source lines 207-210). -/
inductive ContentItem where
  | textItem (text : String)
  | plainItem (repr : String)
deriving DecidableEq

/-- Shape of `result.content`: a list of items or a scalar rendered by
`str(result.content)` (source lines 206-212). -/
inductive RawContent where
  | listC (items : List ContentItem)
  | scalarC (repr : String)
deriving DecidableEq

/-- Raw value returned by `session.call_tool`: with or without a `content`
attribute; the latter is rendered by `str(result)` (source lines 205-214). -/
inductive RawResult where
  | withContent (c : RawContent)
  | noContent (repr : String)
deriving DecidableEq

/-- `item.text if hasattr(item, 'text') else str(item)` (source line 208). -/
def itemText : ContentItem → String
  | ContentItem.textItem t => t
  | ContentItem.plainItem r => r

/-- The normalized `iteration_result` stored in `last_response`: either a
flat string or an ordered sequence of strings (source lines 205-214). -/
inductive LastResp where
  | scalar (s : String)
  | listy (l : List String)
deriving DecidableEq

/-- Normalization of the raw tool result into `iteration_result` (source
lines 205-214): list content maps each item to its text, everything else
becomes its string form. -/
def normalizeResult : RawResult → LastResp
  | RawResult.withContent (RawContent.listC items) => LastResp.listy (items.map itemText)
  | RawResult.withContent (RawContent.scalarC r) => LastResp.scalar r
  | RawResult.noContent r => LastResp.scalar r

/-- `result_str` of source lines 217-220: a sequence is rendered as its
elements joined by a comma-space inside square brackets, a scalar as-is. -/
def displayStr : LastResp → String
  | LastResp.listy l => "[" ++ pyJoin ", " l ++ "]"
  | LastResp.scalar s => s

/-- One classified instruction line of a completion response (spec's
Directive).  `calculationAnswer` and `finalAnswer` carry the whole
stripped line, exactly the value the source stores and appends. -/
inductive Directive where
  | functionCall (name : String) (rawArgs : List String)
  | calculationAnswer (text : String)
  | finalAnswer (text : String)
deriving DecidableEq

/-- Per-line classification of source lines 162-243: strip the line, skip
it when blank, split a `FUNCTION_CALL:` line on the first colon and the
remainder on pipes (each token stripped, first token the tool name), carry
`CALCULATION_ANSWER:` and `FINAL_ANSWER:` lines verbatim, and yield
nothing for any other line. -/
def parseLine (raw : String) : Option Directive :=
  let line := pyStrip raw
  if line = "" then none
  else if pyStartsWith line "FUNCTION_CALL:" then
    let functionInfo := String.mk (dropThroughFirst ':' line.data)
    let parts := (pySplit '|' functionInfo).map pyStrip
    some (Directive.functionCall (parts.headD "") parts.tail)
  else if pyStartsWith line "CALCULATION_ANSWER:" then
    some (Directive.calculationAnswer line)
  else if pyStartsWith line "FINAL_ANSWER:" then
    some (Directive.finalAnswer line)
  else none

/-- The Response Parser's output for a whole completion text: the response
is stripped, split into lines, and each line classified in source order. -/
def parseResponse (text : String) : List Directive :=
  (pySplit (Char.ofNat 10) (pyStrip text)).filterMap parseLine

/-- External collaborators of one run: the fetched tool descriptors, the
tool-invocation service (`session.call_tool`, errors carry the exception
message), and the model-completion service, modelled as an oracle indexed
by the iteration counter at call time (exactly one completion call per
loop body; an error models a timeout or service exception). -/
structure Env where
  tools : List ToolDesc
  invoke : String → List (String × PyVal) → Except String RawResult
  complete : Nat → Except String String

/-- The FUNCTION_CALL pipeline of source lines 174-202: find the first
tool whose name matches, coerce the raw tokens against its schema, then
invoke the remote tool. -/
def evalCall (env : Env) (fname : String) (params : List String) :
    Except CallErr (List (String × PyVal) × RawResult) :=
  match env.tools.find? (fun t => t.name == fname) with
  | none => Except.error (CallErr.unknownTool fname)
  | some tool =>
    match coerceArgs fname tool.params params with
    | Except.error e => Except.error (CallErr.argument e)
    | Except.ok args =>
      match env.invoke fname args with
      | Except.error msg => Except.error (CallErr.invocation msg)
      | Except.ok raw => Except.ok (args, raw)

/-- The mutable state of one run: the globals `last_response`,
`iteration`, `iteration_response`, plus `main`'s local `current_query`
(uninitialized in the source; it is always written before it is read, so
the init value below is never observable). -/
structure LoopState where
  lastResponse : Option LastResp
  iteration : Nat
  iterationResponse : List String
  currentQuery : String
deriving DecidableEq

/-- Process one response line (source lines 162-243).  Returns the updated
state and `true` to continue with the next line, `false` on the `break`
statements (directive failure or FINAL_ANSWER). -/
def processLine (env : Env) (s : LoopState) (line : String) : LoopState × Bool :=
  match parseLine line with
  | none => (s, true)
  | some (Directive.functionCall fname params) =>
    match evalCall env fname params with
    | Except.ok (args, raw) =>
      let ir := normalizeResult raw
      ({ s with
          iterationResponse :=
            s.iterationResponse ++ [traceEntry s.iteration fname args (displayStr ir)],
          lastResponse := some ir }, true)
    | Except.error e =>
      ({ s with iterationResponse := s.iterationResponse ++ [errEntry s.iteration e] }, false)
  | some (Directive.calculationAnswer text) =>
    ({ s with
        lastResponse := some (LastResp.scalar text),
        iterationResponse := s.iterationResponse ++ [text] }, true)
  | some (Directive.finalAnswer _) => (s, false)

/-- The `for line in response_text.split('\n')` loop with its `break`
semantics: a `false` outcome stops processing the remaining lines. -/
def processLines (env : Env) : LoopState → List String → LoopState
  | s, [] => s
  | s, l :: ls =>
    match processLine env s l with
    | (s', true) => processLines env s' ls
    | (s', false) => s'

/-- The fixed task query of source line 139. -/
def taskQuery : String :=
  "Find the ASCII values of characters in INDIA and then return sum of exponentials of those values. Draw the result in Paint."

/-- Source lines 147-151: with no prior result the prompt body is the
original task query; otherwise the previous body is extended with all
history entries joined by spaces and a fixed trailing cue. -/
def buildQuery (s : LoopState) : LoopState :=
  match s.lastResponse with
  | none => { s with currentQuery := taskQuery }
  | some _ =>
    let q := s.currentQuery ++ "\n\n" ++ pyJoin " " s.iterationResponse
    { s with currentQuery := q ++ "  What should I do next?" }

/-- `max_iterations` of source line 17. -/
def maxIterations : Nat := 9

/-- Outcome of one loop body: `halt` models the `break` out of the while
loop on a completion failure (no iteration increment); `cont` models
falling through to `iteration += 1`. -/
inductive StepRes where
  | halt (s : LoopState)
  | cont (s : LoopState)
deriving DecidableEq

/-- State after a successful completion: the response text is stripped and
split into lines, the lines are processed, and `iteration += 1` runs. -/
def afterResponse (env : Env) (s1 : LoopState) (text : String) : LoopState :=
  { processLines env s1 (pySplit (Char.ofNat 10) (pyStrip text)) with
    iteration := (processLines env s1 (pySplit (Char.ofNat 10) (pyStrip text))).iteration + 1 }

/-- One body of the while loop (source lines 145-249): rebuild the query,
call the completion service, on failure break out of the loop, otherwise
strip the text, process its lines, and increment the iteration counter. -/
def loopBody (env : Env) (s : LoopState) : StepRes :=
  match env.complete (buildQuery s).iteration with
  | Except.error _ => StepRes.halt (buildQuery s)
  | Except.ok text => StepRes.cont (afterResponse env (buildQuery s) text)

/-- The `while iteration < max_iterations` loop, driven by fuel.  Each
continuing body increments the counter by one, so `maxIterations` units of
fuel are exactly enough to simulate the source loop to termination. -/
def runFrom (env : Env) : Nat → LoopState → LoopState
  | 0, s => s
  | Nat.succ fuel, s =>
    if s.iteration < maxIterations then
      match loopBody env s with
      | StepRes.halt s' => s'
      | StepRes.cont s' => runFrom env fuel s'
    else s

/-- `reset_state` (source lines 47-52): reset the three globals; the local
`current_query` is untouched. -/
def resetGlobals (s : LoopState) : LoopState :=
  { s with lastResponse := none, iteration := 0, iterationResponse := [] }

/-- The state all runs start from. -/
def initState : LoopState :=
  { lastResponse := none, iteration := 0, iterationResponse := [], currentQuery := "" }

/-- State at the top of `main` given the globals `g` left by any earlier
run: `reset_state()` is invoked first (source line 55) and `current_query`
is a fresh local. -/
def startOfMain (g : LoopState) : LoopState :=
  { resetGlobals g with currentQuery := "" }

/-- State reached when the while loop of `main` finishes, before the
`finally` block runs. -/
def mainPre (env : Env) (g : LoopState) : LoopState :=
  runFrom env maxIterations (startOfMain g)

/-- Globals left behind by `main`: the `finally` block invokes
`reset_state()` on every termination path (source lines 255-256). -/
def mainPost (env : Env) (g : LoopState) : LoopState :=
  resetGlobals (mainPre env g)

/-! Helper lemmas shared by the claim theorems. -/

theorem processLine_iteration (env : Env) (s : LoopState) (line : String) :
    ((processLine env s line).1).iteration = s.iteration := by
  unfold processLine
  cases hp : parseLine line with
  | none => rfl
  | some d =>
    cases d with
    | functionCall fname params =>
      cases he : evalCall env fname params with
      | ok v => cases v with | mk args raw => simp [he]
      | error e => simp [he]
    | calculationAnswer t => simp
    | finalAnswer t => simp

theorem processLines_iteration (env : Env) :
    ∀ (ls : List String) (s : LoopState), (processLines env s ls).iteration = s.iteration := by
  intro ls
  induction ls with
  | nil => intro s; rfl
  | cons l ls ih =>
    intro s
    unfold processLines
    cases hp : processLine env s l with
    | mk s' b =>
      have hi : s'.iteration = s.iteration := by
        have h := processLine_iteration env s l
        rw [hp] at h
        exact h
      cases b with
      | false => exact hi
      | true => rw [ih s']; exact hi

theorem buildQuery_iteration (s : LoopState) : (buildQuery s).iteration = s.iteration := by
  unfold buildQuery
  cases s.lastResponse <;> rfl

theorem buildQuery_lastResponse (s : LoopState) :
    (buildQuery s).lastResponse = s.lastResponse := by
  unfold buildQuery
  cases s.lastResponse <;> rfl

theorem buildQuery_iterationResponse (s : LoopState) :
    (buildQuery s).iterationResponse = s.iterationResponse := by
  unfold buildQuery
  cases s.lastResponse <;> rfl

theorem loopBody_halt_iteration (env : Env) (s s' : LoopState)
    (h : loopBody env s = StepRes.halt s') : s'.iteration = s.iteration := by
  unfold loopBody at h
  cases hc : env.complete ((buildQuery s).iteration) with
  | error e =>
    rw [hc] at h
    cases h
    exact buildQuery_iteration s
  | ok text =>
    rw [hc] at h
    simp at h

theorem loopBody_cont_iteration (env : Env) (s s' : LoopState)
    (h : loopBody env s = StepRes.cont s') : s'.iteration = s.iteration + 1 := by
  unfold loopBody at h
  cases hc : env.complete ((buildQuery s).iteration) with
  | error e =>
    rw [hc] at h
    simp at h
  | ok text =>
    rw [hc] at h
    simp only [StepRes.cont.injEq] at h
    subst h
    show (afterResponse env (buildQuery s) text).iteration = s.iteration + 1
    unfold afterResponse
    simp [processLines_iteration, buildQuery_iteration]

theorem runFrom_stop (env : Env) (fuel : Nat) (s : LoopState)
    (h : maxIterations ≤ s.iteration) : runFrom env fuel s = s := by
  cases fuel with
  | zero => rfl
  | succ fuel =>
    unfold runFrom
    rw [if_neg (by omega)]

theorem runFrom_iteration_le (env : Env) :
    ∀ (fuel : Nat) (s : LoopState), s.iteration ≤ maxIterations →
      (runFrom env fuel s).iteration ≤ maxIterations := by
  intro fuel
  induction fuel with
  | zero => intro s h; exact h
  | succ fuel ih =>
    intro s h
    unfold runFrom
    by_cases hlt : s.iteration < maxIterations
    · rw [if_pos hlt]
      cases hb : loopBody env s with
      | halt s' =>
        have := loopBody_halt_iteration env s s' hb
        dsimp only
        omega
      | cont s' =>
        have := loopBody_cont_iteration env s s' hb
        dsimp only
        exact ih s' (by omega)
    · rw [if_neg hlt]
      exact h

theorem parseLine_of_blank (l : String) (h : pyStrip l = "") : parseLine l = none := by
  unfold parseLine
  simp [h]

theorem parseLine_isSome_nonblank (l : String) (h : (parseLine l).isSome = true) :
    (!(pyStrip l == "")) = true := by
  by_cases hb : pyStrip l = ""
  · rw [parseLine_of_blank l hb] at h
    cases h
  · simp [hb]

theorem length_filterMap_le_length_filter {α β : Type} (f : α → Option β) (p : α → Bool)
    (hfp : ∀ x, (f x).isSome = true → p x = true) :
    ∀ L : List α, (L.filterMap f).length ≤ (L.filter p).length := by
  intro L
  induction L with
  | nil => simp
  | cons x L ih =>
    cases hf : f x with
    | none =>
      cases hp : p x with
      | false => simpa [List.filterMap_cons, List.filter_cons, hf, hp] using ih
      | true =>
        simp only [List.filterMap_cons, List.filter_cons, hf, hp, if_true, List.length_cons]
        omega
    | some b =>
      have hp := hfp x (by simp [hf])
      simp only [List.filterMap_cons, List.filter_cons, hf, hp, if_true, List.length_cons]
      omega

theorem coerceArgs_short (fname : String) :
    ∀ (ps : List (String × String)) (toks : List String),
      toks.length < ps.length → ∃ e, coerceArgs fname ps toks = Except.error e := by
  intro ps
  induction ps with
  | nil =>
    intro toks h
    simp at h
  | cons p rest ih =>
    intro toks h
    cases toks with
    | nil => exact ⟨ArgErr.notEnough fname, rfl⟩
    | cons v ts =>
      cases p with
      | mk pn pt =>
        cases hc : coerceOne pt v with
        | error e => exact ⟨e, by simp [coerceArgs, hc]⟩
        | ok val =>
          obtain ⟨e, he⟩ := ih ts (by simpa using h)
          exact ⟨e, by simp [coerceArgs, hc, he]⟩

theorem coerceArgs_take (fname : String) :
    ∀ (ps : List (String × String)) (toks : List String),
      ps.length ≤ toks.length →
      coerceArgs fname ps toks = coerceArgs fname ps (toks.take ps.length) := by
  intro ps
  induction ps with
  | nil => intro toks _; rfl
  | cons p rest ih =>
    intro toks h
    cases toks with
    | nil => simp at h
    | cons v ts =>
      cases p with
      | mk pn pt =>
        simp only [List.length_cons, List.take_succ_cons]
        cases hc : coerceOne pt v with
        | error e => simp [coerceArgs, hc]
        | ok val =>
          simp only [coerceArgs, hc]
          rw [ih ts (by simpa using h)]

theorem coerceArgs_ok_spec (fname : String) :
    ∀ (ps : List (String × String)) (toks : List String) (res : List (String × PyVal)),
      coerceArgs fname ps toks = Except.ok res →
      res.length = ps.length ∧ ps.length ≤ toks.length ∧
      ∀ (i : Nat) (hp : i < ps.length) (hr : i < res.length) (ht : i < toks.length),
        (res.get ⟨i, hr⟩).1 = (ps.get ⟨i, hp⟩).1 ∧
        coerceOne (ps.get ⟨i, hp⟩).2 (toks.get ⟨i, ht⟩) = Except.ok (res.get ⟨i, hr⟩).2 := by
  intro ps
  induction ps with
  | nil =>
    intro toks res h
    simp only [coerceArgs, Except.ok.injEq] at h
    subst h
    refine ⟨rfl, Nat.zero_le _, ?_⟩
    intro i hp
    simp at hp
  | cons p rest ih =>
    intro toks res h
    cases toks with
    | nil => simp [coerceArgs] at h
    | cons v ts =>
      cases p with
      | mk pn pt =>
        cases hc : coerceOne pt v with
        | error e => simp [coerceArgs, hc] at h
        | ok val =>
          cases hrest : coerceArgs fname rest ts with
          | error e => simp [coerceArgs, hc, hrest] at h
          | ok args =>
            simp only [coerceArgs, hc, hrest, Except.ok.injEq] at h
            subst h
            obtain ⟨hl, hle, hidx⟩ := ih ts args hrest
            refine ⟨by simp [hl], by simpa using hle, ?_⟩
            intro i hp hr ht
            cases i with
            | zero => exact ⟨rfl, by simpa using hc⟩
            | succ n =>
              have hp' : n < rest.length := by simpa using hp
              have hr' : n < args.length := by simpa using hr
              have ht' : n < ts.length := by simpa using ht
              simpa using hidx n hp' hr' ht'

theorem coerceArgs_notEnough (fname : String) :
    ∀ (ps : List (String × String)) (toks : List String),
      toks.length < ps.length →
      (∀ (i : Nat) (ht : i < toks.length) (hp : i < ps.length),
        ∃ v, coerceOne (ps.get ⟨i, hp⟩).2 (toks.get ⟨i, ht⟩) = Except.ok v) →
      coerceArgs fname ps toks = Except.error (ArgErr.notEnough fname) := by
  intro ps
  induction ps with
  | nil =>
    intro toks h hall
    simp at h
  | cons p rest ih =>
    intro toks h hall
    cases toks with
    | nil => rfl
    | cons v ts =>
      cases p with
      | mk pn pt =>
        obtain ⟨v0, hv0⟩ := hall 0 (by simp) (by simp)
        have hv0c : coerceOne pt v = Except.ok v0 := hv0
        simp only [coerceArgs, hv0c]
        rw [ih ts (by simpa using h) ?_]
        intro i ht hp
        have hs := hall (i + 1) (by simpa using ht) (by simpa using hp)
        exact hs

theorem parseIntList_mem_error :
    ∀ (xs : List String), (∃ x ∈ xs, parsePyInt x = none) →
      ∃ e, parseIntList xs = Except.error e := by
  intro xs
  induction xs with
  | nil =>
    rintro ⟨x, hx, -⟩
    cases hx
  | cons y ys ih =>
    rintro ⟨x, hx, hnone⟩
    cases hp : parsePyInt y with
    | none => exact ⟨ArgErr.intParse (pyStrip y), by simp [parseIntList, hp]⟩
    | some n =>
      have hxy : x ∈ ys := by
        rcases List.mem_cons.mp hx with h | h
        · subst h
          rw [hp] at hnone
          cases hnone
        · exact h
      obtain ⟨e, he⟩ := ih ⟨x, hxy, hnone⟩
      exact ⟨e, by simp [parseIntList, hp, he]⟩

theorem parseIntList_ok :
    ∀ (xs : List String) (ns : List Int), parseIntList xs = Except.ok ns →
      List.Forall₂ (fun x n => parsePyInt x = some n) xs ns := by
  intro xs
  induction xs with
  | nil =>
    intro ns h
    simp only [parseIntList, Except.ok.injEq] at h
    subst h
    exact List.Forall₂.nil
  | cons y ys ih =>
    intro ns h
    cases hp : parsePyInt y with
    | none => simp [parseIntList, hp] at h
    | some n =>
      cases hr : parseIntList ys with
      | error e => simp [parseIntList, hp, hr] at h
      | ok ms =>
        simp only [parseIntList, hp, hr, Except.ok.injEq] at h
        subst h
        exact List.Forall₂.cons hp (ih ms hr)

/-- `coerceOne` on an `array` parameter is exactly strip-brackets,
split-on-comma, per-element `int`. -/
theorem coerceOne_array (v : String) :
    coerceOne "array" v =
      (match parseIntList (pySplit ',' (stripBracketChars v)) with
        | Except.ok ns => Except.ok (PyVal.arr ns)
        | Except.error e => Except.error e) := rfl

theorem getLastD_concat_char : ∀ (xs : List Char) (b d : Char), ((xs ++ [b]).getLastD d) = b := by
  intro xs
  induction xs with
  | nil => intro b d; rfl
  | cons x xs ih =>
    intro b d
    rw [List.cons_append, List.getLastD_cons]
    exact ih b x

theorem stripChars_wrap (l : List Char) (hne : l ≠ [])
    (hhead : isBracketChar (l.headD ' ') = false)
    (hlast : isBracketChar (l.getLastD ' ') = false) :
    stripChars ('[' :: (l ++ [']'])) = l := by
  cases l with
  | nil => cases hne rfl
  | cons a l' =>
    simp only [List.headD_cons] at hhead
    unfold stripChars
    rw [List.cons_append, List.dropWhile_cons, if_pos (by decide),
      List.dropWhile_cons, if_neg (by simp [hhead])]
    rw [← List.cons_append, List.reverse_append,
      show ([']'] : List Char).reverse = [']'] from rfl, List.singleton_append,
      List.dropWhile_cons, if_pos (by decide)]
    cases hrev : (a :: l').reverse with
    | nil => simp at hrev
    | cons b rest =>
      have hl : (a :: l') = rest.reverse ++ [b] := by
        have h := congrArg List.reverse hrev
        simpa using h
      have hb : isBracketChar b = false := by
        rw [hl, getLastD_concat_char] at hlast
        exact hlast
      rw [List.dropWhile_cons, if_neg (by simp [hb]), ← hrev, List.reverse_reverse]

/-! Concrete environments used as claim evidence. -/

/-- Run whose first completion is a FinalAnswer and whose later completions
are CalculationAnswers: observes what happens after a FINAL_ANSWER line. -/
def envFinalAnswer : Env :=
  { tools := []
    invoke := fun _ _ => Except.error "no tools"
    complete := fun i =>
      if i = 0 then Except.ok "FINAL_ANSWER: [42]" else Except.ok "CALCULATION_ANSWER: [7]" }

/-- Run with one `add` tool whose invocation returns list-shaped content
(`[TextContent(text="5")]`), then a completion failure to end the loop. -/
def envListResult : Env :=
  { tools := [{ name := "add", params := [("a", "integer"), ("b", "integer")] }]
    invoke := fun _ _ =>
      Except.ok (RawResult.withContent (RawContent.listC [ContentItem.textItem "5"]))
    complete := fun i =>
      if i = 0 then Except.ok "FUNCTION_CALL: add|2|3" else Except.error "service stop" }

/-- Run whose completions always request a tool that is not registered. -/
def envUnknown : Env :=
  { tools := []
    invoke := fun _ _ => Except.error "x"
    complete := fun _ => Except.ok "FUNCTION_CALL: unknown_tool|1" }

/-- State after one failed unknown-tool iteration of `envUnknown`. -/
def errState : LoopState :=
  { lastResponse := none, iteration := 1,
    iterationResponse := ["Error in iteration 1: Unknown tool: unknown_tool"],
    currentQuery := taskQuery }

/-! Claim theorems. -/

/-- C1: the claim says a FinalAnswer directive terminates the entire run
immediately: no later directive applied, no further completion call, no
further iteration.  The code's `break` at the FINAL_ANSWER branch exits
only the per-line `for` loop; `iteration += 1` then runs and the `while`
loop continues.  With the completion oracle answering `FINAL_ANSWER: [42]`
at iteration 0 and `CALCULATION_ANSWER: [7]` afterwards, the run executes
all 9 iterations: 8 further completion calls are made and their directives
are applied (8 history entries), contradicting the claim and the code's
own `=== Agent Execution Complete ===` message. -/
theorem C1_final_answer_run_continues :
    (mainPre envFinalAnswer initState).iteration = 9 ∧
    (mainPre envFinalAnswer initState).iterationResponse.length = 8 ∧
    (mainPre envFinalAnswer initState).iterationResponse.headD "" = "CALCULATION_ANSWER: [7]" := by
  decide

/-- C2 counterexample: the claim says the value stored in
ConversationState as the most recent result is always a single display
string, never an unconverted sequence.  But source line 226 stores
`iteration_result` itself: after `FUNCTION_CALL: add|2|3` returns the
list-shaped content `["5"]`, `last_response` holds the sequence
`["5"]`, which differs from the display string rendering `"[5]"`. -/
theorem C2_last_response_is_sequence :
    (mainPre envListResult initState).lastResponse = some (LastResp.listy ["5"]) ∧
    LastResp.listy ["5"] ≠ LastResp.scalar (displayStr (LastResp.listy ["5"])) := by
  decide

/-- C2 amended: on a successful tool call, the history trace entry is
rendered from the single display string (list results joined by comma and
space inside square brackets, scalars as their string form), but the
latest stored result is the normalized CallResult itself, which for
list-shaped content remains the unconverted sequence of element texts. -/
theorem C2_display_string_in_history_only :
    (∀ (env : Env) (s : LoopState) (line fname : String) (params : List String)
        (args : List (String × PyVal)) (raw : RawResult),
        parseLine line = some (Directive.functionCall fname params) →
        evalCall env fname params = Except.ok (args, raw) →
        processLine env s line =
          ({ s with
              iterationResponse := s.iterationResponse ++
                [traceEntry s.iteration fname args (displayStr (normalizeResult raw))],
              lastResponse := some (normalizeResult raw) }, true)) ∧
    (∀ l : List String, displayStr (LastResp.listy l) = "[" ++ pyJoin ", " l ++ "]") ∧
    (∀ str : String, displayStr (LastResp.scalar str) = str) ∧
    (∀ items : List ContentItem,
        normalizeResult (RawResult.withContent (RawContent.listC items)) =
          LastResp.listy (items.map itemText)) := by
  refine ⟨?_, fun l => rfl, fun str => rfl, fun items => rfl⟩
  intro env s line fname params args raw hp he
  simp [processLine, hp, he]

/-- C2 amended witness: the amended statement applied to the concrete
`add` call returning list content `["5"]`. -/
theorem C2_display_witness :
    processLine envListResult initState "FUNCTION_CALL: add|2|3" =
      ({ initState with
          iterationResponse :=
            [traceEntry 0 "add" [("a", PyVal.int 2), ("b", PyVal.int 3)] "[5]"],
          lastResponse := some (LastResp.listy ["5"]) }, true) :=
  C2_display_string_in_history_only.1 envListResult initState "FUNCTION_CALL: add|2|3"
    "add" ["2", "3"] [("a", PyVal.int 2), ("b", PyVal.int 3)]
    (RawResult.withContent (RawContent.listC [ContentItem.textItem "5"]))
    (by decide) (by decide)

/-- C3: when applying a FunctionCall directive fails (unknown tool,
coercion failure, or invocation error), exactly one error trace entry is
appended to history, the remaining lines of the same response are not
processed (`break` of the per-line loop), and the run is not terminated:
the body still returns a continuing step whose next iteration runs when
the maximum has not been reached. -/
theorem C3_failure_aborts_response_only :
    (∀ (env : Env) (s : LoopState) (line fname : String) (params : List String) (e : CallErr),
        parseLine line = some (Directive.functionCall fname params) →
        evalCall env fname params = Except.error e →
        processLine env s line =
          ({ s with iterationResponse := s.iterationResponse ++ [errEntry s.iteration e] },
            false)) ∧
    (∀ (env : Env) (s s' : LoopState) (l : String) (ls : List String),
        processLine env s l = (s', false) →
        processLines env s (l :: ls) = s') ∧
    (∀ (env : Env) (s : LoopState) (text : String),
        env.complete (buildQuery s).iteration = Except.ok text →
        loopBody env s = StepRes.cont (afterResponse env (buildQuery s) text)) ∧
    (∀ (env : Env) (fuel : Nat) (s s' : LoopState),
        s.iteration < maxIterations →
        loopBody env s = StepRes.cont s' →
        runFrom env (fuel + 1) s = runFrom env fuel s') := by
  refine ⟨?_, ?_, ?_, ?_⟩
  · intro env s line fname params e hp he
    simp [processLine, hp, he]
  · intro env s s' l ls h
    unfold processLines
    rw [h]
  · intro env s text h
    unfold loopBody
    rw [h]
  · intro env fuel s s' hlt hb
    conv_lhs => unfold runFrom
    rw [if_pos hlt, hb]

/-- C3 witness: the unknown-tool scenario of the spec at concrete inputs:
one error entry, remaining lines dropped, loop continues. -/
theorem C3_witness :
    processLine envUnknown initState "FUNCTION_CALL: unknown_tool|1" =
      ({ initState with
          iterationResponse := ["Error in iteration 1: Unknown tool: unknown_tool"] },
        false) ∧
    processLines envUnknown initState ("FUNCTION_CALL: unknown_tool|1" :: ["FINAL_ANSWER: [9]"]) =
      { initState with
          iterationResponse := ["Error in iteration 1: Unknown tool: unknown_tool"] } ∧
    loopBody envUnknown initState =
      StepRes.cont (afterResponse envUnknown (buildQuery initState) "FUNCTION_CALL: unknown_tool|1") ∧
    runFrom envUnknown 9 initState = runFrom envUnknown 8 errState :=
  ⟨C3_failure_aborts_response_only.1 envUnknown initState "FUNCTION_CALL: unknown_tool|1"
      "unknown_tool" ["1"] (CallErr.unknownTool "unknown_tool") (by decide) (by decide),
    C3_failure_aborts_response_only.2.1 envUnknown initState
      ({ initState with
          iterationResponse := ["Error in iteration 1: Unknown tool: unknown_tool"] })
      "FUNCTION_CALL: unknown_tool|1" ["FINAL_ANSWER: [9]"] (by decide),
    C3_failure_aborts_response_only.2.2.1 envUnknown initState "FUNCTION_CALL: unknown_tool|1"
      (by decide),
    C3_failure_aborts_response_only.2.2.2 envUnknown 8 initState errState (by decide) (by decide)⟩

/-- C4: the Response Parser yields at most one directive per non-blank
line, in source order: blank lines and non-matching non-blank lines yield
no directive (and no error); a line whose stripped form starts with
`FUNCTION_CALL:` is split on the first colon and the remainder on pipes
into a tool name and positional argument tokens (each token
whitespace-stripped, as source line 171 does); `CALCULATION_ANSWER:` and
`FINAL_ANSWER:` lines become those variants carrying the stripped line;
classification is per line and order-preserving (the parse of a
concatenation of line blocks is the concatenation of their parses). -/
theorem C4_line_classification :
    (∀ l : String, pyStrip l = "" → parseLine l = none) ∧
    (∀ l : String, pyStrip l ≠ "" →
        pyStartsWith (pyStrip l) "FUNCTION_CALL:" = false →
        pyStartsWith (pyStrip l) "CALCULATION_ANSWER:" = false →
        pyStartsWith (pyStrip l) "FINAL_ANSWER:" = false →
        parseLine l = none) ∧
    (∀ l : String, pyStartsWith (pyStrip l) "FUNCTION_CALL:" = true →
        parseLine l = some (Directive.functionCall
          (((pySplit '|' (String.mk (dropThroughFirst ':' (pyStrip l).data))).map pyStrip).headD "")
          (((pySplit '|' (String.mk (dropThroughFirst ':' (pyStrip l).data))).map pyStrip).tail))) ∧
    (∀ l : String, pyStartsWith (pyStrip l) "FUNCTION_CALL:" = false →
        pyStartsWith (pyStrip l) "CALCULATION_ANSWER:" = true →
        parseLine l = some (Directive.calculationAnswer (pyStrip l))) ∧
    (∀ l : String, pyStartsWith (pyStrip l) "FUNCTION_CALL:" = false →
        pyStartsWith (pyStrip l) "CALCULATION_ANSWER:" = false →
        pyStartsWith (pyStrip l) "FINAL_ANSWER:" = true →
        parseLine l = some (Directive.finalAnswer (pyStrip l))) ∧
    (∀ text : String, (parseResponse text).length ≤
        ((pySplit (Char.ofNat 10) (pyStrip text)).filter (fun l => !(pyStrip l == ""))).length) ∧
    (∀ ls1 ls2 : List String,
        (ls1 ++ ls2).filterMap parseLine = ls1.filterMap parseLine ++ ls2.filterMap parseLine) ∧
    parseLine "FUNCTION_CALL: add|2:3| x " = some (Directive.functionCall "add" ["2:3", "x"]) := by
  refine ⟨parseLine_of_blank, ?_, ?_, ?_, ?_, ?_, ?_, by decide⟩
  · intro l hne h1 h2 h3
    simp [parseLine, hne, h1, h2, h3]
  · intro l hs
    have hne : ¬(pyStrip l = "") := by
      intro hb
      rw [hb] at hs
      exact absurd hs (by decide)
    simp [parseLine, hne, hs]
  · intro l h1 h2
    have hne : ¬(pyStrip l = "") := by
      intro hb
      rw [hb] at h2
      exact absurd h2 (by decide)
    simp [parseLine, hne, h1, h2]
  · intro l h1 h2 h3
    have hne : ¬(pyStrip l = "") := by
      intro hb
      rw [hb] at h3
      exact absurd h3 (by decide)
    simp [parseLine, hne, h1, h2, h3]
  · intro text
    exact length_filterMap_le_length_filter parseLine (fun l => !(pyStrip l == ""))
      parseLine_isSome_nonblank _
  · intro ls1 ls2
    exact List.filterMap_append ls1 ls2 parseLine

/-- C4 witness: the classification applied at concrete lines of each kind
(the FUNCTION_CALL line shows the split on the first colon, the pipe
split, and token stripping). -/
theorem C4_witness :
    parseLine "   " = none ∧
    parseLine "the answer is below" = none ∧
    parseLine " FUNCTION_CALL: add|2:3| x " = some (Directive.functionCall "add" ["2:3", "x"]) ∧
    parseLine "CALCULATION_ANSWER: [42]" =
      some (Directive.calculationAnswer "CALCULATION_ANSWER: [42]") ∧
    parseLine "FINAL_ANSWER: [42]" = some (Directive.finalAnswer "FINAL_ANSWER: [42]") :=
  ⟨C4_line_classification.1 "   " (by decide),
    C4_line_classification.2.1 "the answer is below" (by decide) (by decide) (by decide) (by decide),
    (C4_line_classification.2.2.1 " FUNCTION_CALL: add|2:3| x " (by decide)).trans (by decide),
    (C4_line_classification.2.2.2.1 "CALCULATION_ANSWER: [42]" (by decide) (by decide)).trans
      (by decide),
    (C4_line_classification.2.2.2.2.1 "FINAL_ANSWER: [42]" (by decide) (by decide)
      (by decide)).trans (by decide)⟩

/-- C5: arguments are consumed positionally against the declared parameter
list: fewer raw tokens than declared parameters is an ArgumentError (and
exactly the `Not enough parameters` error whenever every consumed token
coerces); with at least as many tokens as parameters the result depends
only on the first N tokens (excess silently ignored), and on success the
produced mapping pairs each declared parameter, in declared order, with
the coercion of its positional token. -/
theorem C5_positional_arity :
    (∀ (fname : String) (ps : List (String × String)) (toks : List String),
        toks.length < ps.length → ∃ e, coerceArgs fname ps toks = Except.error e) ∧
    (∀ (fname : String) (ps : List (String × String)) (toks : List String),
        toks.length < ps.length →
        (∀ (i : Nat) (ht : i < toks.length) (hp : i < ps.length),
          ∃ v, coerceOne (ps.get ⟨i, hp⟩).2 (toks.get ⟨i, ht⟩) = Except.ok v) →
        coerceArgs fname ps toks = Except.error (ArgErr.notEnough fname)) ∧
    (∀ (fname : String) (ps : List (String × String)) (toks : List String),
        ps.length ≤ toks.length →
        coerceArgs fname ps toks = coerceArgs fname ps (toks.take ps.length)) ∧
    (∀ (fname : String) (ps : List (String × String)) (toks : List String)
        (res : List (String × PyVal)),
        coerceArgs fname ps toks = Except.ok res →
        res.length = ps.length ∧ ps.length ≤ toks.length ∧
        ∀ (i : Nat) (hp : i < ps.length) (hr : i < res.length) (ht : i < toks.length),
          (res.get ⟨i, hr⟩).1 = (ps.get ⟨i, hp⟩).1 ∧
          coerceOne (ps.get ⟨i, hp⟩).2 (toks.get ⟨i, ht⟩) = Except.ok (res.get ⟨i, hr⟩).2) :=
  ⟨coerceArgs_short, coerceArgs_notEnough, coerceArgs_take, coerceArgs_ok_spec⟩

/-- C5 witness: two declared integer parameters with one, two, and three
raw tokens: failure below the arity, excess token ignored at and above
it. -/
theorem C5_witness :
    coerceArgs "add" [("a", "integer"), ("b", "integer")] ["2"] =
      Except.error (ArgErr.notEnough "add") ∧
    coerceArgs "add" [("a", "integer"), ("b", "integer")] ["2", "3", "9"] =
      coerceArgs "add" [("a", "integer"), ("b", "integer")] (["2", "3", "9"].take 2) ∧
    ([("a", PyVal.int 2), ("b", PyVal.int 3)] : List (String × PyVal)).length =
      ([("a", "integer"), ("b", "integer")] : List (String × String)).length :=
  ⟨C5_positional_arity.2.1 "add" [("a", "integer"), ("b", "integer")] ["2"] (by decide)
      (fun i ht hp => by
        have h1 : i = 0 := Nat.lt_one_iff.mp (by simpa using ht)
        subst h1
        exact ⟨PyVal.int 2, rfl⟩),
    C5_positional_arity.2.2.1 "add" [("a", "integer"), ("b", "integer")] ["2", "3", "9"]
      (by decide),
    (C5_positional_arity.2.2.2 "add" [("a", "integer"), ("b", "integer")] ["2", "3"]
      [("a", PyVal.int 2), ("b", PyVal.int 3)] (by decide)).1⟩

/-- C6: coercion of a raw token against an `array` parameter: a token
enclosed in literal square brackets (whose interior neither starts nor
ends with a bracket character) has them stripped; the remainder is split
on commas; each element is whitespace-trimmed and parsed as a base-10
integer, the whole coercion failing with an ArgumentError when any element
is non-numeric; in particular `"[1, 2, 3]"` yields `[1, 2, 3]`. -/
theorem C6_array_token_coercion :
    coerceOne "array" "[1, 2, 3]" = Except.ok (PyVal.arr [1, 2, 3]) ∧
    (∀ (l : List Char), l ≠ [] → isBracketChar (l.headD ' ') = false →
        isBracketChar (l.getLastD ' ') = false →
        stripChars ('[' :: (l ++ [']'])) = l) ∧
    (∀ (v x : String), x ∈ pySplit ',' (stripBracketChars v) → parsePyInt x = none →
        ∃ e, coerceOne "array" v = Except.error e) ∧
    (∀ (v : String) (ns : List Int), coerceOne "array" v = Except.ok (PyVal.arr ns) →
        List.Forall₂ (fun x n => parsePyInt x = some n) (pySplit ',' (stripBracketChars v)) ns) := by
  refine ⟨by decide, stripChars_wrap, ?_, ?_⟩
  · intro v x hx hnone
    obtain ⟨e, he⟩ := parseIntList_mem_error _ ⟨x, hx, hnone⟩
    exact ⟨e, by rw [coerceOne_array, he]⟩
  · intro v ns h
    rw [coerceOne_array] at h
    cases hr : parseIntList (pySplit ',' (stripBracketChars v)) with
    | error e => rw [hr] at h; cases h
    | ok ms =>
      rw [hr] at h
      have hmn : ms = ns := by
        simpa using h
      subst hmn
      exact parseIntList_ok _ _ hr

/-- C6 witness: bracket stripping on the interior `42` and failure on the
non-numeric element of `"[1, x]"`. -/
theorem C6_witness :
    stripChars ('[' :: (['4', '2'] ++ [']'])) = ['4', '2'] ∧
    (∃ e, coerceOne "array" "[1, x]" = Except.error e) :=
  ⟨C6_array_token_coercion.2.1 ['4', '2'] (by decide) (by decide) (by decide),
    C6_array_token_coercion.2.2.1 "[1, x]" " x" (by decide) (by decide)⟩

/-- Run whose completions are a line matching no directive kind: each body
changes nothing but the iteration counter. -/
def envQuiet : Env :=
  { tools := []
    invoke := fun _ _ => Except.error ""
    complete := fun _ => Except.ok "ok" }

/-- The state `envQuiet` reaches after its first loop body. -/
def quietStep : LoopState :=
  { lastResponse := none, iteration := 1, iterationResponse := [], currentQuery := taskQuery }

/-- A state whose counter already sits at the iteration bound. -/
def nineState : LoopState :=
  { lastResponse := none, iteration := 9, iterationResponse := [], currentQuery := "" }

/-- C7: the iteration counter starts at 0 at the top of every `main`,
every continuing loop body increments it by exactly one, the while loop
refuses to run a body once the counter has reached the fixed maximum of 9,
and consequently no run's final counter exceeds 9 (no run executes more
than 9 iterations). -/
theorem C7_iteration_counter_bound :
    maxIterations = 9 ∧
    (∀ g : LoopState, (startOfMain g).iteration = 0) ∧
    (∀ (env : Env) (s s' : LoopState), loopBody env s = StepRes.cont s' →
        s'.iteration = s.iteration + 1) ∧
    (∀ (env : Env) (fuel : Nat) (s : LoopState), maxIterations ≤ s.iteration →
        runFrom env fuel s = s) ∧
    (∀ (env : Env) (g : LoopState), (mainPre env g).iteration ≤ maxIterations) := by
  refine ⟨rfl, fun g => rfl, loopBody_cont_iteration, runFrom_stop, ?_⟩
  intro env g
  exact runFrom_iteration_le env maxIterations (startOfMain g) (Nat.zero_le _)

/-- C7 witness: one quiet body steps the counter from 0 to 1, and the loop
does nothing once the counter sits at the bound. -/
theorem C7_witness :
    quietStep.iteration = initState.iteration + 1 ∧
    runFrom envQuiet 3 nineState = nineState ∧
    (mainPre envQuiet initState).iteration ≤ maxIterations :=
  ⟨C7_iteration_counter_bound.2.2.1 envQuiet initState quietStep (by decide),
    C7_iteration_counter_bound.2.2.2.1 envQuiet 3 nineState (by decide),
    C7_iteration_counter_bound.2.2.2.2 envQuiet initState⟩

/-- C8: `reset_state()` runs at the top of `main` and in its `finally`
block, so on every termination path the globals return empty (no history,
no latest result, counter 0); a run's behaviour is independent of whatever
state an earlier run left behind, and a second run launched after any
first run behaves exactly as a run from the pristine initial state — no
entry of a previous run is observable. -/
theorem C8_state_reset_between_runs :
    (∀ (env : Env) (g : LoopState),
        (mainPost env g).iterationResponse = [] ∧
        (mainPost env g).lastResponse = none ∧
        (mainPost env g).iteration = 0) ∧
    (∀ (env : Env) (g g' : LoopState), mainPre env g = mainPre env g') ∧
    (∀ (env1 env2 : Env) (g : LoopState),
        mainPre env2 (mainPost env1 g) = mainPre env2 initState) :=
  ⟨fun _ _ => ⟨rfl, rfl, rfl⟩, fun _ _ _ => rfl, fun _ _ _ => rfl⟩

/-- Run whose completions are always a CalculationAnswer. -/
def envCalc : Env :=
  { tools := []
    invoke := fun _ _ => Except.error ""
    complete := fun _ => Except.ok "CALCULATION_ANSWER: [7]" }

/-- C9: a CalculationAnswer directive records its text verbatim (the whole
stripped line, the variant's payload) both as the latest result and as a
new history entry, and line processing continues with the subsequent lines
of the same response — it neither aborts the response nor ends the run. -/
theorem C9_calculation_answer_recorded :
    (∀ (env : Env) (s : LoopState) (line c : String),
        parseLine line = some (Directive.calculationAnswer c) →
        processLine env s line =
          ({ s with
              lastResponse := some (LastResp.scalar c),
              iterationResponse := s.iterationResponse ++ [c] }, true)) ∧
    (∀ (env : Env) (s s' : LoopState) (l : String) (ls : List String),
        processLine env s l = (s', true) →
        processLines env s (l :: ls) = processLines env s' ls) := by
  constructor
  · intro env s line c hp
    simp [processLine, hp]
  · intro env s s' l ls h
    conv_lhs => unfold processLines
    rw [h]

/-- C9 witness: the concrete calculation line is stored verbatim in both
places and the following line is still processed. -/
theorem C9_witness :
    processLine envCalc initState "CALCULATION_ANSWER: [7]" =
      ({ initState with
          lastResponse := some (LastResp.scalar "CALCULATION_ANSWER: [7]"),
          iterationResponse := ["CALCULATION_ANSWER: [7]"] }, true) ∧
    processLines envCalc initState ("CALCULATION_ANSWER: [7]" :: ["ignored tail"]) =
      processLines envCalc
        ({ initState with
            lastResponse := some (LastResp.scalar "CALCULATION_ANSWER: [7]"),
            iterationResponse := ["CALCULATION_ANSWER: [7]"] }) ["ignored tail"] :=
  ⟨C9_calculation_answer_recorded.1 envCalc initState "CALCULATION_ANSWER: [7]"
      "CALCULATION_ANSWER: [7]" (by decide),
    C9_calculation_answer_recorded.2 envCalc initState
      ({ initState with
          lastResponse := some (LastResp.scalar "CALCULATION_ANSWER: [7]"),
          iterationResponse := ["CALCULATION_ANSWER: [7]"] })
      "CALCULATION_ANSWER: [7]" ["ignored tail"] (by decide)⟩

/-- Run whose completions request an unregistered tool named `mystery`. -/
def envUnknown2 : Env :=
  { tools := []
    invoke := fun _ _ => Except.error "x"
    complete := fun _ => Except.ok "FUNCTION_CALL: mystery|1" }

/-- C10: a failed FunctionCall directive leaves the latest result (and the
current query) unchanged — its only effect is the single error entry
appended to history; and whenever the latest result is still unset, the
next prompt body is rebuilt from the original task query alone. -/
theorem C10_failed_call_frame :
    (∀ (env : Env) (s : LoopState) (line fname : String) (params : List String) (e : CallErr),
        parseLine line = some (Directive.functionCall fname params) →
        evalCall env fname params = Except.error e →
        (processLine env s line).1.lastResponse = s.lastResponse ∧
        (processLine env s line).1.currentQuery = s.currentQuery ∧
        (processLine env s line).1.iterationResponse =
          s.iterationResponse ++ [errEntry s.iteration e]) ∧
    (∀ s : LoopState, s.lastResponse = none → (buildQuery s).currentQuery = taskQuery) := by
  constructor
  · intro env s line fname params e hp he
    refine ⟨?_, ?_, ?_⟩ <;> simp [processLine, hp, he]
  · intro s h
    unfold buildQuery
    rw [h]

/-- C10 witness: the failed `mystery` call leaves the latest result unset,
and the next prompt body is the original task query. -/
theorem C10_witness :
    ((processLine envUnknown2 initState "FUNCTION_CALL: mystery|1").1.lastResponse =
        initState.lastResponse ∧
      (processLine envUnknown2 initState "FUNCTION_CALL: mystery|1").1.currentQuery =
        initState.currentQuery ∧
      (processLine envUnknown2 initState "FUNCTION_CALL: mystery|1").1.iterationResponse =
        initState.iterationResponse ++
          [errEntry initState.iteration (CallErr.unknownTool "mystery")]) ∧
    (buildQuery initState).currentQuery = taskQuery :=
  ⟨C10_failed_call_frame.1 envUnknown2 initState "FUNCTION_CALL: mystery|1" "mystery" ["1"]
      (CallErr.unknownTool "mystery") (by decide) (by decide),
    C10_failed_call_frame.2 initState (by decide)⟩

end PaintClient
